import Mathlib

/-!
Verification of the brymen multimeter decoding library.

This file gives a shallow embedding of the library's core modules:

* `brymen/package_reader.py` - byte-level frame decoding and the
  background read/align/parse loop (`Reader` namespace),
* `bm257s/package_parser.py` - mapping a decoded `Package` to a typed
  `Measurement` (`Parser` namespace),
* `bm257s/measurement.py` - the measurement record, metric handling
  and the averaging helper,
* `brymen/buffer.py` - the rolling buffer with fixed-count and
  time-windowed retention.

Machine floats are modelled as exact rationals, timestamps as integers,
Python exceptions as an explicit `PErr` error type carried in `Except`,
and Python sets as `Finset`.  The Python keyword argument `prefix` is
rendered as `pfx` throughout.
-/

set_option maxRecDepth 4000

/-- Python exception values used by the library, as an explicit error type. -/
inductive PErr where
  | RuntimeError (msg : String)
  | ValueError (msg : String)
  | IndexError
  | TruncatedPackage (length : Nat)
  deriving DecidableEq, Repr

instance {ε α : Type} [DecidableEq ε] [DecidableEq α] : DecidableEq (Except ε α) :=
  fun a b =>
    match a, b with
    | Except.ok x, Except.ok y => decidable_of_iff (x = y) (by simp)
    | Except.ok _, Except.error _ => Decidable.isFalse (by simp)
    | Except.error _, Except.ok _ => Decidable.isFalse (by simp)
    | Except.error x, Except.error y => decidable_of_iff (x = y) (by simp)

namespace Reader

/-- Enumeration of all LCD symbols (`Symbol` in `package_reader.py`). -/
inductive Symbol where
  | AUTO | DC | AC | REL
  | BEEP | BATTERY | LOZ | BMINUS
  | HOLD | DBM | MEGA | KILO
  | CREST | OHM | HZ | NANO
  | MAX | FARAD | MICRO | MILLI
  | MIN | VOLT | AMPERE | SCALE
  deriving DecidableEq, Repr

/-- Occupancy of the seven segments A-G of one display digit. -/
structure Seg7 where
  a : Bool
  b : Bool
  c : Bool
  d : Bool
  e : Bool
  f : Bool
  g : Bool
  deriving DecidableEq, Repr

/-- A single decoded 15-byte serial package (`Package` in `package_reader.py`).
Timestamps are modelled as integers. -/
structure Package where
  segments : List Seg7
  dots : List Bool
  minus : Bool
  symbols : Finset Symbol
  timestamp : Int
  deriving DecidableEq

/-- The 7-segment pattern to display-character table from
`Package.segment_character`. -/
def character_segments : List (Seg7 × Char) :=
  [ (⟨true, true, true, true, true, true, false⟩, '0'),
    (⟨false, true, true, false, false, false, false⟩, '1'),
    (⟨true, true, false, true, true, false, true⟩, '2'),
    (⟨true, true, true, true, false, false, true⟩, '3'),
    (⟨false, true, true, false, false, true, true⟩, '4'),
    (⟨true, false, true, true, false, true, true⟩, '5'),
    (⟨true, false, true, true, true, true, true⟩, '6'),
    (⟨true, true, true, false, false, false, false⟩, '7'),
    (⟨true, true, true, true, true, true, true⟩, '8'),
    (⟨true, true, true, true, false, true, true⟩, '9'),
    (⟨true, false, false, true, true, true, false⟩, 'C'),
    (⟨true, false, false, false, true, true, true⟩, 'F'),
    (⟨false, false, false, false, false, false, true⟩, '-'),
    (⟨false, false, false, false, false, false, false⟩, ' '),
    (⟨false, false, false, true, true, true, false⟩, 'L'),
    (⟨true, true, true, false, true, true, true⟩, 'A'),
    (⟨false, false, true, true, true, false, false⟩, 'u'),
    (⟨false, false, false, true, true, true, true⟩, 't'),
    (⟨false, false, true, true, true, false, true⟩, 'o'),
    (⟨true, false, false, true, true, true, true⟩, 'E') ]

/-- Read the character shown by digit `pos` (`Package.segment_character`).
A pattern outside the table is a `RuntimeError`. -/
def Package.segment_character (pkg : Package) (pos : Nat) : Except PErr Char :=
  match pkg.segments.get? pos with
  | none => Except.error PErr.IndexError
  | some seg =>
    match character_segments.find? (fun entry => decide (entry.1 = seg)) with
    | some entry => Except.ok entry.2
    | none => Except.error (PErr.RuntimeError "Cannot read character from segment")

/-- Characters (with optional dots) of the digit positions in the given
list; the loop body of `Package.segment_string` over `range(start_i,
end_i)`.  Out-of-range dot positions are read as `false` (the library only
queries positions 0-2). -/
def segStrAux (pkg : Package) (use_dots : Bool) : List Nat → Except PErr String
  | [] => Except.ok ""
  | i :: rest =>
    match pkg.segment_character i with
    | Except.error er => Except.error er
    | Except.ok ch =>
      let dot := if use_dots && (pkg.dots.getD i false) then "." else ""
      match segStrAux pkg use_dots rest with
      | Except.error er => Except.error er
      | Except.ok tail => Except.ok (ch.toString ++ dot ++ tail)

/-- String formed by the segment display (`Package.segment_string`). -/
def Package.segment_string (pkg : Package) (start_i : Nat := 0) (end_i : Nat := 3)
    (use_dots : Bool := true) (use_minus : Bool := true) : Except PErr String :=
  let head := if use_minus && pkg.minus then "-" else ""
  match segStrAux pkg use_dots (List.range' start_i (end_i - start_i)) with
  | Except.error er => Except.error er
  | Except.ok mid =>
    match pkg.segment_character end_i with
    | Except.error er => Except.error er
    | Except.ok lastc => Except.ok (head ++ mid ++ lastc.toString)

/-- Parse a single 7-segment digit from the raw bytes (`parse_segment`).
Bytes are modelled as naturals below 256; out-of-range reads yield byte 0
(the callers always stay within the 15-byte window). -/
def parse_segment (data : List Nat) (pos : Nat) : Seg7 :=
  let start_i := 3 + 2 * pos
  { a := (data.getD start_i 0).testBit 3,
    b := (data.getD (start_i + 1) 0).testBit 3,
    c := (data.getD (start_i + 1) 0).testBit 1,
    d := (data.getD (start_i + 1) 0).testBit 0,
    e := (data.getD start_i 0).testBit 1,
    f := (data.getD start_i 0).testBit 2,
    g := (data.getD (start_i + 1) 0).testBit 2 }

/-- Parse a single dot from the raw bytes (`parse_dot`). -/
def parse_dot (data : List Nat) (pos : Nat) : Bool :=
  (data.getD (5 + 2 * pos) 0).testBit 0

/-- Symbols encoded in the low nibble of one byte: a set bit at position `j`
selects the `(3-j)`-th symbol registered for that byte offset, scanned in
ascending `j` as in `parse_symbols`. -/
def symbolsAt (d : Nat) (syms : Symbol × Symbol × Symbol × Symbol) : List Symbol :=
  (if d.testBit 0 then [syms.2.2.2] else []) ++
  (if d.testBit 1 then [syms.2.2.1] else []) ++
  (if d.testBit 2 then [syms.2.1] else []) ++
  (if d.testBit 3 then [syms.1] else [])

/-- The `symbol_positions` table of `parse_symbols`, in ascending byte order
(matching the iteration over bytes 0-14). -/
def symbol_positions : List (Nat × (Symbol × Symbol × Symbol × Symbol)) :=
  [ (1, (Symbol.AUTO, Symbol.DC, Symbol.AC, Symbol.REL)),
    (2, (Symbol.BEEP, Symbol.BATTERY, Symbol.LOZ, Symbol.BMINUS)),
    (11, (Symbol.HOLD, Symbol.DBM, Symbol.MEGA, Symbol.KILO)),
    (12, (Symbol.CREST, Symbol.OHM, Symbol.HZ, Symbol.NANO)),
    (13, (Symbol.MAX, Symbol.FARAD, Symbol.MICRO, Symbol.MILLI)),
    (14, (Symbol.MIN, Symbol.VOLT, Symbol.AMPERE, Symbol.SCALE)) ]

/-- Parse the shown symbols from the raw bytes (`parse_symbols`). -/
def parse_symbols (data : List Nat) : List Symbol :=
  (symbol_positions.map (fun entry => symbolsAt (data.getD entry.1 0) entry.2)).flatten

/-- Parse the minus sign from the raw bytes (`parse_minus`). -/
def parse_minus (data : List Nat) : Bool :=
  (data.getD 3 0).testBit 0

/-- First position whose 5-bit index tag does not equal the position; the
index-check loop of `parse_package`. -/
def firstBadIndex : List Nat → Nat → Option Nat
  | [], _ => none
  | d :: rest, i =>
    if (d &&& (((1 <<< 5) - 1) <<< 4)) >>> 4 ≠ i then some i
    else firstBadIndex rest (i + 1)

/-- Parse a package from raw multimeter data (`parse_package` in
`package_reader.py`).  `now` stands for `datetime.now()`. -/
def parse_package (data : List Nat) (now : Int) : Except PErr Package :=
  match firstBadIndex data 0 with
  | some i => Except.error (PErr.TruncatedPackage i)
  | none =>
    Except.ok
      { segments := [parse_segment data 0, parse_segment data 1,
                     parse_segment data 2, parse_segment data 3],
        dots := [parse_dot data 0, parse_dot data 1, parse_dot data 2],
        minus := parse_minus data,
        symbols := (parse_symbols data).toFinset,
        timestamp := now }

end Reader

/-! ### Python numeric string parsing

`float(...)` and `int(...)` restricted to the character set the segment
display can produce (digits, sign, dot, exponent letter `E`, spaces).
Values are exact rationals. -/

/-- Numeric value of a decimal digit character, if it is one. -/
def digitVal (c : Char) : Option Nat :=
  if '0' ≤ c ∧ c ≤ '9' then some (c.toNat - 48) else none

/-- Value of a nonempty all-digit character list, read in base 10. -/
def digitsVal : List Char → Option Nat
  | [] => none
  | [c] => digitVal c
  | c :: rest =>
    match digitVal c, digitsVal rest with
    | some d, some r => some (d * 10 ^ rest.length + r)
    | _, _ => none

/-- Check that every character is a decimal digit. -/
def allDigits (cs : List Char) : Bool :=
  cs.all (fun c => (digitVal c).isSome)

/-- Value of a digit list, allowing the empty list (value 0). -/
def digitsValD (cs : List Char) : Nat :=
  (digitsVal cs).getD 0

/-- Mantissa part of a float literal: `digits [. digits]` with at least one
digit overall and no further dot. -/
def pyMantissa (cs : List Char) : Option ℚ :=
  let ip := cs.takeWhile (fun c => c ≠ '.')
  let rest := cs.dropWhile (fun c => c ≠ '.')
  match rest with
  | [] =>
    if allDigits ip ∧ ip ≠ [] then some ((digitsValD ip : ℚ)) else none
  | _ :: fp =>
    if allDigits ip ∧ allDigits fp ∧ (ip ≠ [] ∨ fp ≠ []) ∧ fp.all (fun c => c ≠ '.') then
      some ((digitsValD ip : ℚ) + (digitsValD fp : ℚ) / (10 : ℚ) ^ fp.length)
    else none

/-- Optional sign prefixing a numeric literal. -/
def pySign : List Char → (Bool × List Char)
  | '-' :: rest => (true, rest)
  | '+' :: rest => (false, rest)
  | cs => (false, cs)

/-- Signed integer exponent after `e`/`E`. -/
def pyExpVal (cs : List Char) : Option Int :=
  let s := pySign cs
  if allDigits s.2 ∧ s.2 ≠ [] then
    some (if s.1 then -(digitsValD s.2 : Int) else (digitsValD s.2 : Int))
  else none

/-- Strip the leading and trailing spaces Python's `float`/`int` accept. -/
def stripSpaces (cs : List Char) : List Char :=
  ((cs.dropWhile (fun c => c = ' ')).reverse.dropWhile (fun c => c = ' ')).reverse

/-- Model of Python `float(s)` on the segment-display alphabet:
optional sign, decimal mantissa, optional `e`/`E` exponent. -/
def pyFloat (s : String) : Option ℚ :=
  let cs := stripSpaces s.toList
  let sgn := pySign cs
  let mant := sgn.2.takeWhile (fun c => c ≠ 'e' ∧ c ≠ 'E')
  let rest := sgn.2.dropWhile (fun c => c ≠ 'e' ∧ c ≠ 'E')
  match pyMantissa mant with
  | none => none
  | some m =>
    let signed := if sgn.1 then -m else m
    match rest with
    | [] => some signed
    | _ :: expPart =>
      match pyExpVal expPart with
      | none => none
      | some ex => some (signed * (10 : ℚ) ^ ex)

/-- Model of Python `int(s)`: optional sign, nonempty digit string. -/
def pyInt (s : String) : Option Int :=
  let cs := stripSpaces s.toList
  let sgn := pySign cs
  if allDigits sgn.2 ∧ sgn.2 ≠ [] then
    some (if sgn.1 then -(digitsValD sgn.2 : Int) else (digitsValD sgn.2 : Int))
  else none

/-! ### Measurements (`bm257s/measurement.py`) -/

namespace Meas

/-- Metric prefixes recognized by `Measurement.PREFIX_MULTIPLIERS`
(`PREFIX_NONE` through `PREFIX_NANO`); the Python attribute named
`prefix` is rendered `pfx`. -/
inductive Pfx where
  | none_ | kilo | mega | milli | micro | nano
  deriving DecidableEq, Repr

/-- Display string of a metric pfx (the dictionary keys). -/
def Pfx.str : Pfx → String
  | Pfx.none_ => ""
  | Pfx.kilo => "k"
  | Pfx.mega => "M"
  | Pfx.milli => "m"
  | Pfx.micro => "u"
  | Pfx.nano => "n"

/-- Multiplier of a metric pfx (`PREFIX_MULTIPLIERS`), as an exact rational. -/
def Pfx.multiplier : Pfx → ℚ
  | Pfx.none_ => 1
  | Pfx.kilo => 1000
  | Pfx.mega => 1000000
  | Pfx.milli => 1 / 1000
  | Pfx.micro => 1 / 1000000
  | Pfx.nano => 1 / 1000000000

/-- AC/DC coupling constants (`COUPLING_AC` / `COUPLING_DC`). -/
inductive Coupling where
  | AC | DC
  deriving DecidableEq, Repr

/-- Boolean mode flags stored in `Measurement.properties` after `__init__`
pops the pfx and the timestamp. -/
structure Flags where
  recording : Bool
  min : Bool
  max : Bool
  relative : Bool
  crest : Bool
  autorange : Bool
  deriving DecidableEq, Repr

/-- The `properties` dictionary handed to every measurement constructor:
metric pfx, timestamp and the boolean mode flags. -/
structure MProps where
  pfx : Pfx
  timestamp : Int
  flags : Flags
  deriving DecidableEq, Repr

/-- A measurement record: the common fields of `Measurement` plus the
subclass-specific `unit`, `type_` (Python `_type`) and coupling. -/
structure Measurement where
  type_ : String
  unit : String
  pfx : Pfx
  display_unit : String
  display_value : Option ℚ
  value : Option ℚ
  coupling : Option Coupling
  timestamp : Int
  flags : Flags
  deriving DecidableEq, Repr

/-- Display precision (`Measurement.PRECISION`). -/
def PRECISION : Nat := 4

/-- Python `round` to an integer: round-half-to-even. -/
def pyRound (q : ℚ) : Int :=
  let fl := ⌊q⌋
  let fr := q - fl
  if fr < 1 / 2 then fl
  else if 1 / 2 < fr then fl + 1
  else if Even fl then fl else fl + 1

/-- Python `round(q, n)`: round-half-to-even at `n` decimal places. -/
def roundTo (n : Nat) (q : ℚ) : ℚ :=
  (pyRound (q * (10 : ℚ) ^ n) : ℚ) / (10 : ℚ) ^ n

/-- The body of `Measurement.__init__`: pop pfx and timestamp from the
properties, derive the display unit, and store the base-unit value
`display_value * multiplier`. -/
def Measurement.init (unit : String) (display_value : Option ℚ) (p : MProps) :
    Measurement :=
  { type_ := "",
    unit := unit,
    pfx := p.pfx,
    display_unit := p.pfx.str ++ unit,
    display_value := display_value,
    value := display_value.map (fun dv => dv * p.pfx.multiplier),
    coupling := none,
    timestamp := p.timestamp,
    flags := p.flags }

/-- The `value` property setter: update `display_value` (rounded to the
display precision) whenever `value` is reassigned. -/
def Measurement.setValue (m : Measurement) (v : Option ℚ) : Measurement :=
  match v with
  | none => { m with value := none, display_value := none }
  | some w =>
    { m with value := some w,
             display_value := some (roundTo PRECISION (w / m.pfx.multiplier)) }

/-- `TemperatureMeasurement.__init__`: validates the unit letter and
overrides the display unit with a degree sign. -/
def TemperatureMeasurement (display_value : Option ℚ) (unit : String) (p : MProps) :
    Except PErr Measurement :=
  if unit = "C" ∨ unit = "F" ∨ unit = "?" then
    Except.ok { Measurement.init unit display_value p with
                type_ := "Temperature", display_unit := "°" ++ unit }
  else
    Except.error (PErr.ValueError ("Unknown temperature unit: " ++ unit))

/-- `ResistanceMeasurement.__init__`: absent value displays as overload
with an empty display unit. -/
def ResistanceMeasurement (display_value : Option ℚ) (p : MProps) : Measurement :=
  let m := { Measurement.init "Ω" display_value p with type_ := "Resistance" }
  if display_value = none then { m with display_unit := "" } else m

/-- `DiodeTest.__init__`: a diode test reading in volts. -/
def DiodeTest (display_value : Option ℚ) (p : MProps) : Measurement :=
  let m := { Measurement.init "V" display_value p with type_ := "Diode" }
  if display_value = none then { m with display_unit := "" } else m

/-- `VoltageMeasurement.__init__`: the instance unit becomes `Vrms` for AC
coupling, after the base constructor derived the display unit from `V`. -/
def VoltageMeasurement (display_value : Option ℚ) (coupling : Coupling) (p : MProps) :
    Measurement :=
  { Measurement.init "V" display_value p with
    type_ := "Voltage",
    coupling := some coupling,
    unit := if coupling = Coupling.AC then "Vrms" else "V" }

/-- `CurrentMeasurement.__init__`: the instance unit becomes `Arms` for AC
coupling. -/
def CurrentMeasurement (display_value : Option ℚ) (coupling : Coupling) (p : MProps) :
    Measurement :=
  { Measurement.init "A" display_value p with
    type_ := "Current",
    coupling := some coupling,
    unit := if coupling = Coupling.AC then "Arms" else "A" }

/-- `CapacitanceMeasurement`: inherits everything, unit `F`. -/
def CapacitanceMeasurement (display_value : Option ℚ) (p : MProps) : Measurement :=
  { Measurement.init "F" display_value p with type_ := "Capacitance" }

/-- `FrequencyMeasurement`: inherits everything, unit `Hz`. -/
def FrequencyMeasurement (display_value : Option ℚ) (p : MProps) : Measurement :=
  { Measurement.init "Hz" display_value p with type_ := "Frequency" }

/-- `TextDisplay.__init__`: the raw string becomes the type tag and there is
no numeric value (the empty display string is modelled as `none`). -/
def TextDisplay (raw : String) (p : MProps) : Measurement :=
  { Measurement.init "" none p with type_ := raw, display_value := none }

/-- Arithmetic mean of a list of rationals (`statistics.mean`). -/
def mean (vs : List ℚ) : ℚ :=
  vs.sum / (vs.length : ℚ)

/-- The unit-check-and-collect loop of `measurement.average`: raises on a
unit change, collects the non-absent values. -/
def averageValues (u : String) : List Measurement → Except PErr (List ℚ)
  | [] => Except.ok []
  | m :: rest =>
    if m.unit ≠ u then
      Except.error (PErr.ValueError "Measurement unit changed while monitoring!")
    else
      match averageValues u rest with
      | Except.error er => Except.error er
      | Except.ok vs =>
        Except.ok (match m.value with | none => vs | some v => v :: vs)

/-- `measurement.average`: combine a list of measurements into a composite
copy of the last one whose value is the mean of the non-absent values;
returns the composite together with the collected values. -/
def average (ms : List Measurement) : Except PErr (Option (Measurement × List ℚ)) :=
  match ms.getLast? with
  | none => Except.ok none
  | some lastm =>
    match averageValues lastm.unit ms with
    | Except.error er => Except.error er
    | Except.ok vs =>
      let composite := if vs ≠ [] then lastm.setValue (some (mean vs)) else lastm
      Except.ok (some (composite, vs))

end Meas

/-! ### Package parsing (`bm257s/package_parser.py`) -/

namespace Parser

open Reader Meas

/-- Whether `pat` occurs as a contiguous run at the front of `hay`. -/
def runAtFront : List Char → List Char → Bool
  | [], _ => true
  | _ :: _, [] => false
  | p :: ps, h :: hs => p = h && runAtFront ps hs

/-- Whether `pat` occurs somewhere inside `hay` (Python `pat in hay` on
strings). -/
def hasSubstr (pat : List Char) : List Char → Bool
  | [] => runAtFront pat []
  | h :: t => runAtFront pat (h :: t) || hasSubstr pat t

/-- Read the segment display as a float (`Package.segment_float`; its call
to `segment_string` passes `use_minus` positionally into `use_dots`, and
every caller uses the default `use_minus = true`). -/
def segment_float (pkg : Package) (start_i : Nat := 0) (end_i : Nat := 3)
    (use_minus : Bool := true) : Except PErr ℚ :=
  match pkg.segment_string start_i end_i use_minus true with
  | Except.error er => Except.error er
  | Except.ok raw =>
    match pyFloat raw with
    | some v => Except.ok v
    | none =>
      Except.error (PErr.RuntimeError "Cannot read float value from segment display")

/-- First of AC, DC present in a symbol set - the coupling-selection loop
shared by `parse_voltage` and `parse_current` (dictionary order AC, DC). -/
def firstCoupling (symbols : Finset Symbol) : Option Coupling :=
  if Symbol.AC ∈ symbols then some Coupling.AC
  else if Symbol.DC ∈ symbols then some Coupling.DC
  else none

/-- `parse_text`: the raw segment string becomes a free-text display. -/
def parse_text (pkg : Package) (properties : MProps) : Except PErr Measurement :=
  match pkg.segment_string with
  | Except.error er => Except.error er
  | Except.ok raw_str => Except.ok (TextDisplay raw_str properties)

/-- `parse_voltage`: a `.0L` display encodes an absent value; no AC/DC
symbol reclassifies the reading as a diode test; otherwise the string must
parse as a float. -/
def parse_voltage (pkg : Package) (properties : MProps) : Except PErr Measurement :=
  match pkg.segment_string with
  | Except.error er => Except.error er
  | Except.ok raw_str =>
    let step2 : Except PErr (Option ℚ) :=
      if hasSubstr ".0L".toList raw_str.toList then Except.ok none
      else
        match pyFloat raw_str with
        | some v => Except.ok (some v)
        | none =>
          Except.error
            (PErr.ValueError ("could not convert string to float: " ++ raw_str))
    match step2 with
    | Except.error er => Except.error er
    | Except.ok value =>
      match firstCoupling pkg.symbols with
      | none => Except.ok (DiodeTest value properties)
      | some coupling =>
        match value with
        | none =>
          Except.error (PErr.ValueError ("unexpected voltage display: " ++ raw_str))
        | some v => Except.ok (VoltageMeasurement (some v) coupling properties)

/-- `parse_current`: the display must parse as a float and AC or DC must be
present. -/
def parse_current (pkg : Package) (properties : MProps) : Except PErr Measurement :=
  match segment_float pkg with
  | Except.error er => Except.error er
  | Except.ok value =>
    match firstCoupling pkg.symbols with
    | none => Except.error (PErr.ValueError "Unknown current type displayed")
    | some coupling => Except.ok (CurrentMeasurement (some value) coupling properties)

/-- `parse_resistance`: the open-loop displays `0.L` and `0L.` encode an
absent value; otherwise the string must parse as a float. -/
def parse_resistance (pkg : Package) (properties : MProps) : Except PErr Measurement :=
  match pkg.segment_string with
  | Except.error er => Except.error er
  | Except.ok raw_str =>
    if hasSubstr "0.L".toList raw_str.toList then
      Except.ok (ResistanceMeasurement none properties)
    else if hasSubstr "0L.".toList raw_str.toList then
      Except.ok (ResistanceMeasurement none properties)
    else
      match pyFloat raw_str with
      | some v => Except.ok (ResistanceMeasurement (some v) properties)
      | none =>
        Except.error
          (PErr.ValueError ("could not convert string to float: " ++ raw_str))

/-- `parse_temperature`: the last character is the unit letter; an
unrecognized letter is treated as a transient noise reading with unit `?`
and display `---?`; the remaining text `---` encodes an absent value. -/
def parse_temperature (pkg : Package) (properties : MProps) : Except PErr Measurement :=
  match pkg.segment_string with
  | Except.error er => Except.error er
  | Except.ok text0 =>
    match text0.toList.getLast? with
    | none => Except.error PErr.IndexError
    | some u =>
      let unitText : String × String :=
        if u = 'F' then ("F", text0)
        else if u = 'C' then ("C", text0)
        else ("?", "---?")
      let text : String := String.mk unitText.2.toList.dropLast
      if text = "---" then TemperatureMeasurement none unitText.1 properties
      else
        match pyInt text with
        | some n => TemperatureMeasurement (some (n : ℚ)) unitText.1 properties
        | none =>
          Except.error
            (PErr.ValueError ("invalid literal for int with base 10: " ++ text))

/-- `parse_capacitance`: plain float parse. -/
def parse_capacitance (pkg : Package) (properties : MProps) : Except PErr Measurement :=
  match segment_float pkg with
  | Except.error er => Except.error er
  | Except.ok value => Except.ok (CapacitanceMeasurement (some value) properties)

/-- `parse_frequency`: plain float parse. -/
def parse_frequency (pkg : Package) (properties : MProps) : Except PErr Measurement :=
  match segment_float pkg with
  | Except.error er => Except.error er
  | Except.ok value => Except.ok (FrequencyMeasurement (some value) properties)

/-- `parse_prefix`: first of KILO, MEGA, MILLI, MICRO, NANO present in the
package symbols (dictionary iteration order), else no pfx. -/
def parse_pfx (pkg : Package) : Pfx :=
  if Symbol.KILO ∈ pkg.symbols then Pfx.kilo
  else if Symbol.MEGA ∈ pkg.symbols then Pfx.mega
  else if Symbol.MILLI ∈ pkg.symbols then Pfx.milli
  else if Symbol.MICRO ∈ pkg.symbols then Pfx.micro
  else if Symbol.NANO ∈ pkg.symbols then Pfx.nano
  else Pfx.none_

/-- `_parse_boolean_property`: record whether the symbol is present and
consume it from the remaining set. -/
def parse_boolean_property (remaining : Finset Symbol) (s : Symbol) :
    Bool × Finset Symbol :=
  if s ∈ remaining then (true, remaining.erase s) else (false, remaining)

/-- `parse_optional_properties`: consume MIN+MAX (recording) and the five
individual boolean flags; return the flags and the unconsumed symbols. -/
def parse_optional_properties (pkg : Package) : Flags × Finset Symbol :=
  let r0 := pkg.symbols
  let rec0 : Bool × Finset Symbol :=
    if Symbol.MIN ∈ r0 ∧ Symbol.MAX ∈ r0 then
      (true, (r0.erase Symbol.MIN).erase Symbol.MAX)
    else (false, r0)
  let minP := parse_boolean_property rec0.2 Symbol.MIN
  let maxP := parse_boolean_property minP.2 Symbol.MAX
  let relP := parse_boolean_property maxP.2 Symbol.REL
  let crestP := parse_boolean_property relP.2 Symbol.CREST
  let autoP := parse_boolean_property crestP.2 Symbol.AUTO
  ({ recording := rec0.1, min := minP.1, max := maxP.1,
     relative := relP.1, crest := crestP.1, autorange := autoP.1 },
   autoP.2)

/-- The `properties` dictionary built by `parse_package` before dispatch. -/
def mkProps (pkg : Package) : MProps :=
  { pfx := parse_pfx pkg,
    timestamp := pkg.timestamp,
    flags := (parse_optional_properties pkg).1 }

/-- The symbol-to-handler mapping of `parse_package`, in dictionary
insertion order. -/
def parserMapping : List (Symbol × (Package → MProps → Except PErr Measurement)) :=
  [ (Symbol.VOLT, parse_voltage),
    (Symbol.AMPERE, parse_current),
    (Symbol.OHM, parse_resistance),
    (Symbol.FARAD, parse_capacitance),
    (Symbol.HZ, parse_frequency) ]

/-- Error message for a symbol combination no handler accepts (the Python
message interpolates the remaining symbol set, which is omitted here). -/
def unparseableMsg : String := "Cannot parse multimeter package configuration"

/-- `parse_package` in `package_parser.py`: build the common properties,
dispatch on the first mapped symbol present in the package, and fall back
to text / temperature / an unparseable-configuration error. -/
def parse_package (pkg : Package) : Except PErr Measurement :=
  let properties := mkProps pkg
  let remaining_symbols := (parse_optional_properties pkg).2
  match parserMapping.find? (fun entry => decide (entry.1 ∈ pkg.symbols)) with
  | some entry => entry.2 pkg properties
  | none =>
    if remaining_symbols = {Symbol.LOZ} then parse_text pkg properties
    else if remaining_symbols = (∅ : Finset Symbol) then
      parse_temperature pkg properties
    else Except.error (PErr.RuntimeError unparseableMsg)

/-- The accepted `mode_change` policy values of `parse_package_list`. -/
def valid_modes : List String := ["exception", "truncate", "ignore"]

/-- The package loop of `parse_package_list`: parse each package and react
to a unit change according to the policy. -/
def ppl_go (mode_change : String) : List Package → List Measurement →
    Except PErr (List Measurement)
  | [], meas => Except.ok meas
  | p :: ps, meas =>
    match parse_package p with
    | Except.error er => Except.error er
    | Except.ok m =>
      match meas.getLast? with
      | none => ppl_go mode_change ps (meas ++ [m])
      | some prev =>
        if m.unit ≠ prev.unit then
          if mode_change = "exception" then
            Except.error
              (PErr.RuntimeError
                ("Meter changed from reading " ++ prev.unit ++ " to " ++ m.unit))
          else if mode_change = "truncate" then ppl_go mode_change ps [m]
          else ppl_go mode_change ps (meas ++ [m])
        else ppl_go mode_change ps (meas ++ [m])

/-- `parse_package_list`: validate the policy value (the default in Python
is `exception`), then run the package loop. -/
def parse_package_list (pkgs : List Package) (mode_change : String) :
    Except PErr (List Measurement) :=
  if mode_change ∈ valid_modes then ppl_go mode_change pkgs []
  else Except.error (PErr.RuntimeError "mode_change not one of valid_set")

end Parser

/-! ### Rolling buffer (`brymen/buffer.py`) -/

namespace Buf

/-- Thread-safe rolling buffer state (`Buffer`): retention window,
deque maximum length, contents, and the non-empty event flag. -/
structure Buffer (α : Type) where
  window : Option Int
  maxlen : Option Nat
  deque : List α
  nonempty : Bool
  deriving DecidableEq

/-- `Buffer.__init__`: a truthy window overrides the count (a zero window
is falsy in Python and leaves the buffer in fixed-count mode, which is
modelled by storing no window). -/
def Buffer.init (α : Type) (count : Option Nat) (window : Option Int) : Buffer α :=
  match window with
  | some w =>
    if w ≠ 0 then { window := some w, maxlen := none, deque := [], nonempty := false }
    else { window := none, maxlen := count, deque := [], nonempty := false }
  | none => { window := none, maxlen := count, deque := [], nonempty := false }

/-- Appending to a `collections.deque` with an optional `maxlen`: entries
roll off the front automatically when the length would be exceeded. -/
def dequeAppend {α : Type} (maxlen : Option Nat) (d : List α) (x : α) : List α :=
  let grown := d ++ [x]
  match maxlen with
  | none => grown
  | some n => grown.drop (grown.length - n)

/-- The while-loop of `Buffer.append` in windowed mode: pop from the front
while the newest timestamp exceeds the front timestamp by more than the
window.  (With a positive window the list never empties; a negative window
would raise `IndexError` in Python.) -/
def evict {α : Type} (ts : α → Int) (w : Int) (newest : Int) : List α → List α
  | [] => []
  | x :: rest => if newest - ts x > w then evict ts w newest rest else x :: rest

/-- `Buffer.append`: add the element, set the non-empty flag, and expire
old samples in windowed mode. -/
def Buffer.append {α : Type} (ts : α → Int) (b : Buffer α) (elem : α) : Buffer α :=
  let d := dequeAppend b.maxlen b.deque elem
  match b.window with
  | none => { b with deque := d, nonempty := true }
  | some w => { b with deque := evict ts w (ts elem) d, nonempty := true }

/-- `Buffer.empty`: the negation of the non-empty event. -/
def Buffer.empty {α : Type} (b : Buffer α) : Bool := !b.nonempty

/-- `Buffer._clear` / `Buffer.clear`: drop the contents and reset the
event. -/
def Buffer.clearB {α : Type} (b : Buffer α) : Buffer α :=
  { b with deque := [], nonempty := false }

/-- `Buffer.read_latest`: the most recent element, raising `IndexError`
when empty; optionally clear as part of the same critical section. -/
def Buffer.read_latest {α : Type} (b : Buffer α) (clear : Bool) :
    Except PErr α × Buffer α :=
  match b.deque.getLast? with
  | none => (Except.error PErr.IndexError, b)
  | some x => (Except.ok x, if clear then b.clearB else b)

/-- `Buffer.read_all`: all elements in insertion order; optionally clear. -/
def Buffer.read_all {α : Type} (b : Buffer α) (clear : Bool) :
    List α × Buffer α :=
  (b.deque, if clear then b.clearB else b)

end Buf

/-! ### Package reader loop and error channel (`brymen/package_reader.py`) -/

namespace Reader

open Buf

/-- Package length and start-marker byte (`PKG_LEN`, `PKG_START`). -/
def PKG_LEN : Nat := 15

/-- Start of the first package byte. -/
def PKG_START : Nat := 2

/-- State of one iteration of `PackageReader._read_and_parse_packages`:
the pending byte window, the bytes not yet returned by the input reader,
and the history of packages appended to the buffer. -/
structure LoopState where
  data : List Nat
  input : List Nat
  emitted : List Package
  deriving DecidableEq

/-- One iteration of the read/align/parse loop: read up to the missing
byte count (the model reader returns as many of the remaining bytes as
requested), align to the first start-marker byte, and parse a full window,
discarding the bad prefix on a truncated package.  The clock is modelled
as constant 0. -/
def loopStep (s : LoopState) : LoopState :=
  let want := PKG_LEN - s.data.length
  let data1 := s.data ++ s.input.take want
  let input1 := s.input.drop want
  if data1.length = 0 then
    { data := data1, input := input1, emitted := s.emitted }
  else
    let data2 :=
      match data1.findIdx? (fun byte => byte = PKG_START) with
      | some i => data1.drop i
      | none => data1
    if PKG_LEN ≤ data2.length then
      match parse_package (data2.take PKG_LEN) 0 with
      | Except.ok pkg =>
        { data := data2.drop PKG_LEN, input := input1,
          emitted := s.emitted ++ [pkg] }
      | Except.error (PErr.TruncatedPackage i) =>
        { data := data2.drop i, input := input1, emitted := s.emitted }
      | Except.error _ =>
        { data := data2, input := input1, emitted := s.emitted }
    else
      { data := data2, input := input1, emitted := s.emitted }

/-- Iterate the read/align/parse loop `n` times. -/
def loopRun : Nat → LoopState → LoopState
  | 0, s => s
  | n + 1, s => loopRun n (loopStep s)

/-- Foreground-visible state of a `PackageReader`: the single-slot
exception channel (`queue.Queue(maxsize=1)`) and the rolling buffer. -/
structure ReaderState where
  exc : Option PErr
  buffer : Buffer Package
  deriving DecidableEq

/-- `PackageReader.__init__`: the buffer is created with the given window
and the default count of 1. -/
def ReaderState.init (window : Option Int) : ReaderState :=
  { exc := none, buffer := Buffer.init Package (some 1) window }

/-- The `except` handler of `PackageReader._run`: a non-blocking put into
the single-slot channel (kept only if the slot is free). -/
def ReaderState.recordException (s : ReaderState) (er : PErr) : ReaderState :=
  match s.exc with
  | none => { s with exc := some er }
  | some _ => s

/-- `PackageReader._propagate_exceptions`: drain the single-slot channel,
returning the exception to re-raise, if any. -/
def propagate_exceptions (s : ReaderState) : Option PErr × ReaderState :=
  match s.exc with
  | none => (none, s)
  | some er => (some er, { s with exc := none })

/-- `PackageReader.wait_for_package`: propagate exceptions, then report
whether the buffer's non-empty event is set. -/
def wait_for_package (s : ReaderState) : Except PErr Bool × ReaderState :=
  match propagate_exceptions s with
  | (some er, s1) => (Except.error er, s1)
  | (none, s1) => (Except.ok s1.buffer.nonempty, s1)

/-- `PackageReader.latest_package`: propagate exceptions, then read the
latest package, turning an `IndexError` into `none`. -/
def latest_package (s : ReaderState) (clear : Bool) :
    Except PErr (Option Package) × ReaderState :=
  match propagate_exceptions s with
  | (some er, s1) => (Except.error er, s1)
  | (none, s1) =>
    match s1.buffer.read_latest clear with
    | (Except.error _, b1) => (Except.ok none, { s1 with buffer := b1 })
    | (Except.ok pkg, b1) => (Except.ok (some pkg), { s1 with buffer := b1 })

/-- `PackageReader.all_packages`: propagate exceptions, then read the whole
buffer. -/
def all_packages (s : ReaderState) (clear : Bool) :
    Except PErr (List Package) × ReaderState :=
  match propagate_exceptions s with
  | (some er, s1) => (Except.error er, s1)
  | (none, s1) =>
    match s1.buffer.read_all clear with
    | (pkgs, b1) => (Except.ok pkgs, { s1 with buffer := b1 })

end Reader

/-! ### Helper lemmas about the deque and the buffer -/

namespace Buf

theorem drop_chain {α : Type} (l rest : List α) (N : Nat) :
    (l.drop (l.length - N) ++ rest).drop ((l.drop (l.length - N) ++ rest).length - N)
      = (l ++ rest).drop ((l ++ rest).length - N) := by
  have hKle : l.length - N ≤ l.length := by omega
  rw [← List.drop_append_of_le_length hKle]
  rw [List.drop_drop]
  congr 1
  simp only [List.length_drop, List.length_append]
  omega

theorem dequeAppend_foldl {α : Type} (N : Nat) :
    ∀ (xs d : List α), d.length ≤ N →
      xs.foldl (dequeAppend (some N)) d = (d ++ xs).drop ((d ++ xs).length - N) := by
  intro xs
  induction xs with
  | nil =>
    intro d hd
    have h0 : (d ++ []).length - N = 0 := by simp; omega
    simp only [List.foldl_nil, List.append_nil] at h0 ⊢
    rw [h0]
    rfl
  | cons x rest ih =>
    intro d hd
    rw [List.foldl_cons]
    have hda : dequeAppend (some N) d x
        = (d ++ [x]).drop ((d ++ [x]).length - N) := by
      simp [dequeAppend]
    have hlen : (dequeAppend (some N) d x).length ≤ N := by
      rw [hda]
      simp only [List.length_drop]
      omega
    rw [ih _ hlen, hda]
    rw [drop_chain (d ++ [x]) rest N]
    have harr : (d ++ [x]) ++ rest = d ++ x :: rest := by simp
    rw [harr]

theorem count_fold_deque {α : Type} (ts : α → Int) (N : Nat) :
    ∀ (xs : List α) (b : Buffer α), b.window = none → b.maxlen = some N →
      (xs.foldl (Buffer.append ts) b).deque = xs.foldl (dequeAppend (some N)) b.deque := by
  intro xs
  induction xs with
  | nil => intro b _ _; rfl
  | cons x rest ih =>
    intro b hw hm
    rw [List.foldl_cons, List.foldl_cons]
    have hstep : Buffer.append ts b x =
        { window := none, maxlen := some N,
          deque := dequeAppend (some N) b.deque x, nonempty := true } := by
      simp [Buffer.append, hw, hm]
    rw [hstep]
    exact ih _ rfl rfl

theorem drop_length_sub_one {α : Type} :
    ∀ xs : List α, xs.drop (xs.length - 1) = xs.getLast?.toList := by
  intro xs
  induction xs with
  | nil => rfl
  | cons a t ih =>
    cases t with
    | nil => rfl
    | cons b t2 =>
      have h1 : (a :: b :: t2).length - 1 = (b :: t2).length := by
        simp
      rw [h1]
      show (b :: t2).drop ((b :: t2).length - 1 + 1 - 1) = _
      have h2 : (b :: t2).length - 1 + 1 - 1 = (b :: t2).length - 1 := by omega
      rw [h2, ih]
      rw [List.getLast?_cons_cons]

end Buf

/-- C7: Fixed-count buffer: for every capacity N >= 1, appending 2N items to
a buffer of capacity N leaves exactly the last N appended items, in
insertion order; the length never exceeds N, and read-all returns them in
insertion order. -/
theorem Buf.fixed_count_keeps_last_n {α : Type} (ts : α → Int) (N : Nat)
    (xs : List α) (hN : 1 ≤ N) (hlen : xs.length = 2 * N) :
    (xs.foldl (Buffer.append ts) (Buffer.init α (some N) none)).deque = xs.drop N
    ∧ (xs.foldl (Buffer.append ts) (Buffer.init α (some N) none)).deque.length = N
    ∧ ((xs.foldl (Buffer.append ts) (Buffer.init α (some N) none)).read_all false).1
        = xs.drop N := by
  have hinit : (Buffer.init α (some N) none) =
      { window := none, maxlen := some N, deque := [], nonempty := false } := rfl
  have hq : (xs.foldl (Buffer.append ts) (Buffer.init α (some N) none)).deque
      = xs.drop N := by
    rw [hinit]
    rw [Buf.count_fold_deque ts N xs _ rfl rfl]
    show xs.foldl (Buf.dequeAppend (some N)) [] = xs.drop N
    rw [Buf.dequeAppend_foldl N xs [] (by simp)]
    simp only [List.nil_append]
    rw [hlen]
    congr 1
    omega
  refine ⟨hq, ?_, ?_⟩
  · rw [hq, List.length_drop, hlen]
    omega
  · show (xs.foldl (Buffer.append ts) (Buffer.init α (some N) none)).deque = xs.drop N
    exact hq

/-- Witness for `Buf.fixed_count_keeps_last_n` at capacity 2 with four
appended integers. -/
theorem Buf.fixed_count_keeps_last_n_witness :
    (([10, 20, 30, 40] : List Int).foldl (Buf.Buffer.append id)
        (Buf.Buffer.init Int (some 2) none)).deque = [30, 40]
    ∧ (([10, 20, 30, 40] : List Int).foldl (Buf.Buffer.append id)
        (Buf.Buffer.init Int (some 2) none)).deque.length = 2
    ∧ ((([10, 20, 30, 40] : List Int).foldl (Buf.Buffer.append id)
        (Buf.Buffer.init Int (some 2) none)).read_all false).1 = [30, 40] :=
  Buf.fixed_count_keeps_last_n id 2 [10, 20, 30, 40] (by decide) (by decide)

/-- C9: a buffer constructed the way `PackageReader.__init__` does with no
window (`Buffer(window=None)`, so the default count of 1 applies) holds at
most the single most recently appended item after any sequence of appends,
and read-all returns at most one item. -/
theorem Reader.default_buffer_capacity_one (xs : List Reader.Package) :
    (xs.foldl (Buf.Buffer.append Reader.Package.timestamp)
        (Reader.ReaderState.init none).buffer).deque = xs.getLast?.toList
    ∧ (xs.foldl (Buf.Buffer.append Reader.Package.timestamp)
        (Reader.ReaderState.init none).buffer).deque.length ≤ 1
    ∧ ((xs.foldl (Buf.Buffer.append Reader.Package.timestamp)
        (Reader.ReaderState.init none).buffer).read_all true).1.length ≤ 1 := by
  have hinit : (Reader.ReaderState.init none).buffer =
      { window := none, maxlen := some 1, deque := [], nonempty := false } := rfl
  have hq : (xs.foldl (Buf.Buffer.append Reader.Package.timestamp)
      (Reader.ReaderState.init none).buffer).deque = xs.getLast?.toList := by
    rw [hinit]
    rw [Buf.count_fold_deque Reader.Package.timestamp 1 xs _ rfl rfl]
    show xs.foldl (Buf.dequeAppend (some 1)) [] = xs.getLast?.toList
    rw [Buf.dequeAppend_foldl 1 xs [] (by simp)]
    simp only [List.nil_append]
    exact Buf.drop_length_sub_one xs
  refine ⟨hq, ?_, ?_⟩
  · rw [hq]
    cases xs.getLast? <;> simp
  · show (xs.foldl (Buf.Buffer.append Reader.Package.timestamp)
        (Reader.ReaderState.init none).buffer).deque.length ≤ 1
    rw [hq]
    cases xs.getLast? <;> simp

/-! ### Time-windowed eviction lemmas -/

namespace Buf

theorem evict_mem {α : Type} (ts : α → Int) (w newest : Int) :
    ∀ (l : List α) (y : α), y ∈ evict ts w newest l → y ∈ l := by
  intro l
  induction l with
  | nil => intro y hy; simp [evict] at hy
  | cons x rest ih =>
    intro y hy
    by_cases hx : newest - ts x > w
    · simp only [evict, if_pos hx] at hy
      exact List.mem_cons_of_mem x (ih y hy)
    · simp only [evict, if_neg hx] at hy
      exact hy

theorem evict_bound (w newest : Int) :
    ∀ l : List Int, l.Sorted (· ≤ ·) →
      ∀ y ∈ evict id w newest l, newest - y ≤ w := by
  intro l
  induction l with
  | nil => intro _ y hy; simp [evict] at hy
  | cons x rest ih =>
    intro hsort y hy
    by_cases hx : newest - id x > w
    · simp only [evict, if_pos hx] at hy
      exact ih (List.Sorted.of_cons hsort) y hy
    · simp only [evict, if_neg hx] at hy
      rcases List.mem_cons.mp hy with h | h
      · subst h; simpa using le_of_not_lt hx
      · have hxy : x ≤ y := (List.sorted_cons.mp hsort).1 y h
        have : newest - id x ≤ w := le_of_not_lt hx
        simp only [id] at this ⊢
        omega

theorem evict_sorted (w newest : Int) :
    ∀ l : List Int, l.Sorted (· ≤ ·) → (evict id w newest l).Sorted (· ≤ ·) := by
  intro l
  induction l with
  | nil => intro _; simp [evict]
  | cons x rest ih =>
    intro hsort
    by_cases hx : newest - id x > w
    · simp only [evict, if_pos hx]
      exact ih (List.Sorted.of_cons hsort)
    · simp only [evict, if_neg hx]
      exact hsort

/-- Invariant carried through the windowed-append induction: sorted deque
whose elements pairwise differ by at most the window. -/
def WindowInv (w : Int) (b : Buffer Int) : Prop :=
  b.window = some w ∧ b.maxlen = none ∧ b.deque.Sorted (· ≤ ·)
  ∧ ∀ x ∈ b.deque, ∀ y ∈ b.deque, x - y ≤ w

theorem window_append_inv (w : Int) (b : Buffer Int) (t : Int)
    (hI : WindowInv w b) (hub : ∀ y ∈ b.deque, y ≤ t) :
    WindowInv w (Buffer.append id b t) ∧ ∀ y ∈ (Buffer.append id b t).deque, y ≤ t := by
  obtain ⟨hw, hm, hsort, _⟩ := hI
  have happ : Buffer.append id b t =
      { window := some w, maxlen := none,
        deque := evict id w t (b.deque ++ [t]), nonempty := true } := by
    simp [Buffer.append, hw, hm, dequeAppend]
  have hsort2 : (b.deque ++ [t]).Sorted (· ≤ ·) := by
    rw [List.Sorted, List.pairwise_append]
    exact ⟨hsort, List.pairwise_singleton _ _, fun a ha y hy => by
      simp only [List.mem_singleton] at hy
      subst hy
      exact hub a ha⟩
  have hsort3 : (evict id w t (b.deque ++ [t])).Sorted (· ≤ ·) :=
    evict_sorted w t _ hsort2
  have hubs : ∀ y ∈ evict id w t (b.deque ++ [t]), y ≤ t := by
    intro y hy
    have hmem := evict_mem id w t _ y hy
    rcases List.mem_append.mp hmem with h | h
    · exact hub y h
    · simp only [List.mem_singleton] at h
      exact le_of_eq h
  have hlo : ∀ y ∈ evict id w t (b.deque ++ [t]), t - y ≤ w :=
    evict_bound w t _ hsort2
  rw [happ]
  refine ⟨⟨rfl, rfl, hsort3, ?_⟩, ?_⟩
  · intro x hx y hy
    have h1 : x ≤ t := hubs x hx
    have h2 : t - y ≤ w := hlo y hy
    omega
  · intro y hy
    exact hubs y hy

theorem window_fold_inv (w : Int) :
    ∀ (ys : List Int) (b : Buffer Int), WindowInv w b →
      ys.Sorted (· ≤ ·) → (∀ x ∈ b.deque, ∀ z ∈ ys, x ≤ z) →
      WindowInv w (ys.foldl (Buffer.append id) b) := by
  intro ys
  induction ys with
  | nil => intro b hI _ _; exact hI
  | cons z rest ih =>
    intro b hI hsort hfut
    rw [List.foldl_cons]
    have hub : ∀ y ∈ b.deque, y ≤ z := by
      intro y hy
      exact hfut y hy z (List.mem_cons_self z rest)
    obtain ⟨hI2, hub2⟩ := window_append_inv w b z hI hub
    apply ih _ hI2 (List.Sorted.of_cons hsort)
    intro x hx z2 hz2
    have h1 : x ≤ z := hub2 x hx
    have h2 : z ≤ z2 := (List.sorted_cons.mp hsort).1 z2 hz2
    omega

end Buf

/-- C4 (amended): in windowed mode, if items are appended with
non-decreasing timestamps, then after every append any two buffered items
differ by at most the window. -/
theorem Buf.window_invariant_monotone (w : Int) (xs : List Int) (hw : 0 < w)
    (hmono : xs.Sorted (· ≤ ·)) :
    ∀ x ∈ (xs.foldl (Buf.Buffer.append id) (Buf.Buffer.init Int none (some w))).deque,
    ∀ y ∈ (xs.foldl (Buf.Buffer.append id) (Buf.Buffer.init Int none (some w))).deque,
      x - y ≤ w := by
  have hinit : Buf.Buffer.init Int none (some w) =
      { window := some w, maxlen := none, deque := [], nonempty := false } := by
    have hw0 : w ≠ 0 := by omega
    simp [Buf.Buffer.init, hw0]
  have hI0 : Buf.WindowInv w (Buf.Buffer.init Int none (some w)) := by
    rw [hinit]
    refine ⟨rfl, rfl, List.sorted_nil, ?_⟩
    intro x hx
    simp at hx
  have hfut0 : ∀ x ∈ (Buf.Buffer.init Int none (some w)).deque, ∀ z ∈ xs, x ≤ z := by
    rw [hinit]
    intro x hx
    simp at hx
  have hfinal := Buf.window_fold_inv w xs (Buf.Buffer.init Int none (some w))
    hI0 hmono hfut0
  exact hfinal.2.2.2

/-- Witness for `Buf.window_invariant_monotone` with window 10 and sorted
timestamps 0, 5, 14: the two surviving items differ by at most the
window. -/
theorem Buf.window_invariant_monotone_witness :
    (14 : Int) ∈ (([0, 5, 14] : List Int).foldl (Buf.Buffer.append id)
        (Buf.Buffer.init Int none (some 10))).deque
    ∧ (5 : Int) ∈ (([0, 5, 14] : List Int).foldl (Buf.Buffer.append id)
        (Buf.Buffer.init Int none (some 10))).deque
    ∧ (14 : Int) - 5 ≤ 10 := by
  refine ⟨by decide, by decide, ?_⟩
  exact Buf.window_invariant_monotone 10 [0, 5, 14] (by decide) (by decide)
    14 (by decide) 5 (by decide)

/-- C4 (counterexample): appending items whose timestamps are not
monotone (0, 5, then -20) to a window-10 buffer leaves two items whose
timestamps differ by more than the window, because eviction only compares
the front against the newest element's timestamp. -/
theorem Buf.window_invariant_counterexample :
    (([0, 5, -20] : List Int).foldl (Buf.Buffer.append id)
        (Buf.Buffer.init Int none (some 10))).deque = [0, 5, -20]
    ∧ ¬ (∀ x ∈ (([0, 5, -20] : List Int).foldl (Buf.Buffer.append id)
        (Buf.Buffer.init Int none (some 10))).deque,
        ∀ y ∈ (([0, 5, -20] : List Int).foldl (Buf.Buffer.append id)
        (Buf.Buffer.init Int none (some 10))).deque, x - y ≤ 10) := by
  constructor
  · decide
  · decide

/-- Every metric multiplier is nonzero. -/
theorem Meas.Pfx.multiplier_ne_zero (p : Meas.Pfx) : p.multiplier ≠ 0 := by
  cases p <;> norm_num [Meas.Pfx.multiplier]

/-- C8: a measurement constructed from a non-absent displayed value stores
the displayed value times the metric multiplier (base units); the
display-form value is recovered exactly by dividing the stored value by the
multiplier, and reassigning the stored value sets the display value to that
quotient rounded to the display precision. -/
theorem Meas.value_base_units_roundtrip (dv : ℚ) (u : String) (p : Meas.MProps) :
    (Meas.Measurement.init u (some dv) p).value = some (dv * p.pfx.multiplier)
    ∧ dv * p.pfx.multiplier / p.pfx.multiplier = dv
    ∧ ((Meas.Measurement.init u (some dv) p).setValue
          (some (dv * p.pfx.multiplier))).display_value
        = some (Meas.roundTo Meas.PRECISION dv) := by
  have hmul : p.pfx.multiplier ≠ 0 := Meas.Pfx.multiplier_ne_zero p.pfx
  have hdiv : dv * p.pfx.multiplier / p.pfx.multiplier = dv :=
    mul_div_cancel_right₀ dv hmul
  refine ⟨rfl, hdiv, ?_⟩
  simp only [Meas.Measurement.setValue, Meas.Measurement.init]
  rw [hdiv]

/-- C5: if the background thread has stored an exception in the single-slot
channel, the next foreground call among wait / latest / all re-raises it
before returning any data and empties the slot; every foreground call on
the emptied state then returns data normally. -/
theorem Reader.exception_delivered_once (s : Reader.ReaderState) (er : PErr)
    (h : s.exc = some er) (c : Bool) :
    Reader.wait_for_package s = (Except.error er, { s with exc := none })
    ∧ Reader.latest_package s c = (Except.error er, { s with exc := none })
    ∧ Reader.all_packages s c = (Except.error er, { s with exc := none })
    ∧ (Reader.wait_for_package { s with exc := none }).1
        = Except.ok s.buffer.nonempty
    ∧ (Reader.latest_package { s with exc := none } c).1
        = Except.ok s.buffer.deque.getLast?
    ∧ (Reader.all_packages { s with exc := none } c).1
        = Except.ok s.buffer.deque := by
  refine ⟨?_, ?_, ?_, ?_, ?_, ?_⟩
  · simp [Reader.wait_for_package, Reader.propagate_exceptions, h]
  · simp [Reader.latest_package, Reader.propagate_exceptions, h]
  · simp [Reader.all_packages, Reader.propagate_exceptions, h]
  · simp [Reader.wait_for_package, Reader.propagate_exceptions]
  · simp only [Reader.latest_package, Reader.propagate_exceptions]
    cases hq : s.buffer.deque.getLast? with
    | none =>
      simp [Buf.Buffer.read_latest, hq]
    | some pkg =>
      cases c <;> simp [Buf.Buffer.read_latest, hq]
  · simp [Reader.all_packages, Reader.propagate_exceptions, Buf.Buffer.read_all]

/-- Concrete reader state for the error-channel witness. -/
def Reader.deadReaderState : Reader.ReaderState :=
  { exc := some (PErr.RuntimeError "reader died"),
    buffer := Buf.Buffer.init Reader.Package (some 1) none }

/-- Witness for `Reader.exception_delivered_once` on a concrete dead-reader
state. -/
theorem Reader.exception_delivered_once_witness :
    Reader.wait_for_package Reader.deadReaderState
        = (Except.error (PErr.RuntimeError "reader died"),
           { Reader.deadReaderState with exc := none })
    ∧ Reader.latest_package Reader.deadReaderState true
        = (Except.error (PErr.RuntimeError "reader died"),
           { Reader.deadReaderState with exc := none })
    ∧ Reader.all_packages Reader.deadReaderState true
        = (Except.error (PErr.RuntimeError "reader died"),
           { Reader.deadReaderState with exc := none })
    ∧ (Reader.wait_for_package { Reader.deadReaderState with exc := none }).1
        = Except.ok Reader.deadReaderState.buffer.nonempty
    ∧ (Reader.latest_package { Reader.deadReaderState with exc := none } true).1
        = Except.ok Reader.deadReaderState.buffer.deque.getLast?
    ∧ (Reader.all_packages { Reader.deadReaderState with exc := none } true).1
        = Except.ok Reader.deadReaderState.buffer.deque :=
  Reader.exception_delivered_once Reader.deadReaderState
    (PErr.RuntimeError "reader died") rfl true

/-! ### C1: re-synchronization of the read/align/parse loop -/

/-- The documented example frame (`02 1A 20 3C 47 50 6A 78 8F 9F A7 B0 C0
D0 E5`, an AC voltage reading). -/
def Reader.exampleFrame : List Nat :=
  [0x02, 0x1A, 0x20, 0x3C, 0x47, 0x50, 0x6A, 0x78,
   0x8F, 0x9F, 0xA7, 0xB0, 0xC0, 0xD0, 0xE5]

/-- Fifteen garbage bytes containing no start marker and whose first byte
carries a nonzero index tag. -/
def Reader.garbageBytes : List Nat := List.replicate 15 0xFF

/-- Initial loop state whose input stream is the garbage followed by the
valid frame. -/
def Reader.garbageState : Reader.LoopState :=
  { data := [], input := Reader.garbageBytes ++ Reader.exampleFrame, emitted := [] }

/-- The state the loop reaches after one iteration on the garbage stream:
the garbage fills the pending window and the frame is still unread. -/
def Reader.stuckState : Reader.LoopState :=
  { data := Reader.garbageBytes, input := Reader.exampleFrame, emitted := [] }

/-- Initial loop state whose input stream is just the valid frame. -/
def Reader.cleanState : Reader.LoopState :=
  { data := [], input := Reader.exampleFrame, emitted := [] }

theorem Reader.loopStep_garbage :
    Reader.loopStep Reader.garbageState = Reader.stuckState := by decide

theorem Reader.loopStep_stuck :
    Reader.loopStep Reader.stuckState = Reader.stuckState := by decide

theorem Reader.loopRun_stuck : ∀ n, Reader.loopRun n Reader.stuckState
    = Reader.stuckState := by
  intro n
  induction n with
  | zero => rfl
  | succ k ih =>
    show Reader.loopRun k (Reader.loopStep Reader.stuckState) = Reader.stuckState
    rw [Reader.loopStep_stuck]
    exact ih

/-- C1 (failing input): with 15 bytes of `0xFF` garbage in front of a valid
frame, the read/align/parse loop discards a zero-length prefix forever and
never emits the frame, no matter how many iterations run; the same frame
supplied without garbage is emitted after a single iteration. -/
theorem Reader.resync_livelock_on_garbage :
    (∀ n, (Reader.loopRun n Reader.garbageState).emitted = [])
    ∧ (∃ pkg, Reader.parse_package Reader.exampleFrame 0 = Except.ok pkg)
    ∧ (Reader.loopRun 1 Reader.cleanState).emitted.length = 1
    ∧ (Reader.loopRun 1 Reader.cleanState).emitted.head?
        = (Reader.parse_package Reader.exampleFrame 0).toOption := by
  refine ⟨?_, ⟨_, rfl⟩, by decide, by decide⟩
  intro n
  cases n with
  | zero => rfl
  | succ k =>
    show (Reader.loopRun k (Reader.loopStep Reader.garbageState)).emitted = []
    rw [Reader.loopStep_garbage, Reader.loopRun_stuck]
    rfl

/-! ### C3: kind selection by symbol presence -/

namespace Parser

open Reader Meas

/-- Modelled from the spec's wording of the kind-selection step: test the
symbols in the fixed priority order VOLT, AMPERE, OHM, FARAD, HZ and
dispatch to the first present one; with none present, an unconsumed symbol
set of exactly LOZ yields free text, an empty unconsumed set yields
temperature, and anything else is the unparseable-configuration error. -/
def kindSelectionSpec (pkg : Package) : Except PErr Measurement :=
  let properties := mkProps pkg
  let remaining := (parse_optional_properties pkg).2
  if Symbol.VOLT ∈ pkg.symbols then parse_voltage pkg properties
  else if Symbol.AMPERE ∈ pkg.symbols then parse_current pkg properties
  else if Symbol.OHM ∈ pkg.symbols then parse_resistance pkg properties
  else if Symbol.FARAD ∈ pkg.symbols then parse_capacitance pkg properties
  else if Symbol.HZ ∈ pkg.symbols then parse_frequency pkg properties
  else if remaining = {Symbol.LOZ} then parse_text pkg properties
  else if remaining = (∅ : Finset Symbol) then parse_temperature pkg properties
  else Except.error (PErr.RuntimeError unparseableMsg)

end Parser

/-- C3: `parse_package` implements exactly the spec's priority dispatch:
first present symbol among VOLT, AMPERE, OHM, FARAD, HZ wins, and the
fallbacks are text for a leftover set of exactly LOZ, temperature for no
leftover symbols, and an unparseable-configuration error otherwise. -/
theorem Parser.parse_package_dispatch (pkg : Reader.Package) :
    Parser.parse_package pkg = Parser.kindSelectionSpec pkg := by
  unfold Parser.parse_package Parser.kindSelectionSpec Parser.parserMapping
  by_cases h1 : Reader.Symbol.VOLT ∈ pkg.symbols <;>
    by_cases h2 : Reader.Symbol.AMPERE ∈ pkg.symbols <;>
      by_cases h3 : Reader.Symbol.OHM ∈ pkg.symbols <;>
        by_cases h4 : Reader.Symbol.FARAD ∈ pkg.symbols <;>
          by_cases h5 : Reader.Symbol.HZ ∈ pkg.symbols <;>
            simp [List.find?, h1, h2, h3, h4, h5]

/-- C6: behaviour of the voltage parser on a decoded display string: an
unparseable numeric display that is not the `.0L` absent-value pattern is a
decode error; the `.0L` pattern with no AC/DC symbol is reclassified as a
diode test instead of erroring; a parseable float with a coupling symbol
present yields a voltage measurement of that parsed value. -/
theorem Parser.parse_voltage_spec (pkg : Reader.Package) (props : Meas.MProps)
    (raw : String) (h : pkg.segment_string = Except.ok raw) :
    (Parser.hasSubstr ".0L".toList raw.toList = false → pyFloat raw = none →
      Parser.parse_voltage pkg props =
        Except.error
          (PErr.ValueError ("could not convert string to float: " ++ raw)))
    ∧ (Parser.hasSubstr ".0L".toList raw.toList = true →
        Parser.firstCoupling pkg.symbols = none →
        Parser.parse_voltage pkg props = Except.ok (Meas.DiodeTest none props))
    ∧ (∀ v : ℚ, Parser.hasSubstr ".0L".toList raw.toList = false →
        pyFloat raw = some v →
        ∀ c, Parser.firstCoupling pkg.symbols = some c →
        Parser.parse_voltage pkg props
          = Except.ok (Meas.VoltageMeasurement (some v) c props)) := by
  refine ⟨?_, ?_, ?_⟩
  · intro hsub hfl
    have hsub2 : Parser.hasSubstr ['.', '0', 'L'] raw.data = false := hsub
    unfold Parser.parse_voltage
    rw [h]
    simp [hsub2, hfl]
  · intro hsub hcoup
    have hsub2 : Parser.hasSubstr ['.', '0', 'L'] raw.data = true := hsub
    unfold Parser.parse_voltage
    rw [h]
    simp [hsub2, hcoup]
  · intro v hsub hfl c hcoup
    have hsub2 : Parser.hasSubstr ['.', '0', 'L'] raw.data = false := hsub
    unfold Parser.parse_voltage
    rw [h]
    simp [hsub2, hfl, hcoup]

/-- Segment pattern of a blank digit. -/
def Parser.blankSeg : Reader.Seg7 :=
  ⟨false, false, false, false, false, false, false⟩

/-- Segment pattern of the digit 0. -/
def Parser.zeroSeg : Reader.Seg7 :=
  ⟨true, true, true, true, true, true, false⟩

/-- Segment pattern of the letter L. -/
def Parser.elSeg : Reader.Seg7 :=
  ⟨false, false, false, true, true, true, false⟩

/-- A package whose display reads ` .0L ` with no symbols: the diode-test
open display. -/
def Parser.diodePkg : Reader.Package :=
  { segments := [Parser.blankSeg, Parser.zeroSeg, Parser.elSeg, Parser.blankSeg],
    dots := [true, false, false],
    minus := false,
    symbols := ∅,
    timestamp := 0 }

/-- Property record with no metric pfx and no flags. -/
def Parser.plainProps : Meas.MProps :=
  { pfx := Meas.Pfx.none_, timestamp := 0,
    flags := { recording := false, min := false, max := false,
               relative := false, crest := false, autorange := false } }

/-- Witness for `Parser.parse_voltage_spec`: the ` .0L ` display with no
AC/DC symbol parses as a diode test. -/
theorem Parser.parse_voltage_spec_witness :
    Parser.parse_voltage Parser.diodePkg Parser.plainProps
      = Except.ok (Meas.DiodeTest none Parser.plainProps) :=
  (Parser.parse_voltage_spec Parser.diodePkg Parser.plainProps " .0L "
    (by decide)).2.1 (by decide) (by decide)

/-! ### C10: AC coupling changes the unit label -/

/-- C10: AC-coupled voltage and current measurements carry the unit labels
`Vrms`/`Arms` rather than `V`/`A`, so a coupling switch with the measured
quantity unchanged is a unit change both for the averaging helper and for
batch-list parsing in exception mode. -/
theorem Meas.ac_coupling_unit_change :
    (∀ (dv : Option ℚ) (p : Meas.MProps),
      (Meas.VoltageMeasurement dv Meas.Coupling.AC p).unit = "Vrms"
      ∧ (Meas.VoltageMeasurement dv Meas.Coupling.DC p).unit = "V"
      ∧ (Meas.CurrentMeasurement dv Meas.Coupling.AC p).unit = "Arms"
      ∧ (Meas.CurrentMeasurement dv Meas.Coupling.DC p).unit = "A")
    ∧ (∀ (dv1 dv2 : Option ℚ) (p1 p2 : Meas.MProps),
        Meas.average [Meas.VoltageMeasurement dv1 Meas.Coupling.DC p1,
                      Meas.VoltageMeasurement dv2 Meas.Coupling.AC p2]
          = Except.error
              (PErr.ValueError "Measurement unit changed while monitoring!"))
    ∧ (∀ (pk1 pk2 : Reader.Package) (m1 m2 : Meas.Measurement),
        Parser.parse_package pk1 = Except.ok m1 →
        Parser.parse_package pk2 = Except.ok m2 →
        m1.unit = "Vrms" → m2.unit = "V" →
        Parser.parse_package_list [pk1, pk2] "exception"
          = Except.error
              (PErr.RuntimeError "Meter changed from reading Vrms to V")) := by
  refine ⟨?_, ?_, ?_⟩
  · intro dv p
    exact ⟨rfl, rfl, rfl, rfl⟩
  · intro dv1 dv2 p1 p2
    have hu : (Meas.VoltageMeasurement dv1 Meas.Coupling.DC p1).unit = "V" := rfl
    simp [Meas.average, Meas.averageValues, Meas.VoltageMeasurement,
          Meas.Measurement.init]
  · intro pk1 pk2 m1 m2 h1 h2 hu1 hu2
    have hm : Parser.parse_package_list [pk1, pk2] "exception"
        = Parser.ppl_go "exception" [pk1, pk2] [] := by
      simp [Parser.parse_package_list, Parser.valid_modes]
    rw [hm]
    simp only [Parser.ppl_go, h1, h2]
    simp [Parser.ppl_go, hu1, hu2]

/-- A DC voltage sample frame (`02 1c 20 3e 4b 51 6a 74 8e 9c af b0 c0 d0
e5`, reading 0.149 V). -/
def Reader.dcFrame : List Nat :=
  [0x02, 0x1c, 0x20, 0x3e, 0x4b, 0x51, 0x6a, 0x74,
   0x8e, 0x9c, 0xaf, 0xb0, 0xc0, 0xd0, 0xe5]

/-- Fallback package used when extracting a parse result. -/
def Reader.emptyPackage : Reader.Package :=
  { segments := [], dots := [], minus := false, symbols := ∅, timestamp := 0 }

/-- The decoded AC voltage example package. -/
def Parser.pkgVac : Reader.Package :=
  (Reader.parse_package Reader.exampleFrame 0).toOption.getD Reader.emptyPackage

/-- The decoded DC voltage sample package. -/
def Parser.pkgVdc : Reader.Package :=
  (Reader.parse_package Reader.dcFrame 0).toOption.getD Reader.emptyPackage

/-- Fallback measurement used when extracting a parse result. -/
def Parser.emptyMeasurement : Meas.Measurement :=
  Meas.TextDisplay "" Parser.plainProps

/-- The measurement decoded from the AC voltage example package. -/
def Parser.measVac : Meas.Measurement :=
  (Parser.parse_package Parser.pkgVac).toOption.getD Parser.emptyMeasurement

/-- The measurement decoded from the DC voltage sample package. -/
def Parser.measVdc : Meas.Measurement :=
  (Parser.parse_package Parser.pkgVdc).toOption.getD Parser.emptyMeasurement

/-- Witness for `Meas.ac_coupling_unit_change`: an AC voltage frame
followed by a DC voltage frame is rejected by exception-mode batch
parsing as a unit change. -/
theorem Meas.ac_coupling_unit_change_witness :
    Parser.parse_package_list [Parser.pkgVac, Parser.pkgVdc] "exception"
      = Except.error
          (PErr.RuntimeError "Meter changed from reading Vrms to V") :=
  Meas.ac_coupling_unit_change.2.2 Parser.pkgVac Parser.pkgVdc
    Parser.measVac Parser.measVdc (by rfl) (by rfl) (by rfl) (by rfl)

/-! ### C2: batch-list parsing policies -/

namespace Parser

open Meas Reader

/-- Sequentially parse every package, propagating the first parse error. -/
def parseAll : List Package → Except PErr (List Measurement)
  | [] => Except.ok []
  | p :: ps =>
    match parse_package p with
    | Except.error er => Except.error er
    | Except.ok m =>
      match parseAll ps with
      | Except.error er => Except.error er
      | Except.ok ms => Except.ok (m :: ms)

/-- The unit-change loop of `parse_package_list` on already-parsed
measurements. -/
def unitLoop (mode_change : String) : List Measurement → List Measurement →
    Except PErr (List Measurement)
  | [], meas => Except.ok meas
  | m :: rest, meas =>
    match meas.getLast? with
    | none => unitLoop mode_change rest (meas ++ [m])
    | some prev =>
      if m.unit ≠ prev.unit then
        if mode_change = "exception" then
          Except.error
            (PErr.RuntimeError
              ("Meter changed from reading " ++ prev.unit ++ " to " ++ m.unit))
        else if mode_change = "truncate" then unitLoop mode_change rest [m]
        else unitLoop mode_change rest (meas ++ [m])
      else unitLoop mode_change rest (meas ++ [m])

/-- The trailing run of measurements sharing the final unit: the maximal
contiguous suffix whose elements all carry the last measurement's unit. -/
def trailingRun (ms : List Measurement) : List Measurement :=
  match ms.getLast? with
  | none => []
  | some lastm => (ms.reverse.takeWhile (fun x => x.unit == lastm.unit)).reverse

theorem ppl_go_eq_unitLoop (mode_change : String) :
    ∀ (pkgs : List Package) (ms acc : List Measurement),
      parseAll pkgs = Except.ok ms →
      ppl_go mode_change pkgs acc = unitLoop mode_change ms acc := by
  intro pkgs
  induction pkgs with
  | nil =>
    intro ms acc h
    simp only [parseAll] at h
    cases h
    rfl
  | cons p ps ih =>
    intro ms acc h
    simp only [parseAll] at h
    cases hp : parse_package p with
    | error er => rw [hp] at h; cases h
    | ok m =>
      rw [hp] at h
      cases hps : parseAll ps with
      | error er => rw [hps] at h; cases h
      | ok ms2 =>
        rw [hps] at h
        cases h
        show ppl_go mode_change (p :: ps) acc = unitLoop mode_change (m :: ms2) acc
        simp only [ppl_go, unitLoop, hp]
        cases hlast : acc.getLast? with
        | none => exact ih ms2 _ hps
        | some prev =>
          dsimp only
          split_ifs with h1 h2 h3
          · rfl
          · exact ih ms2 _ hps
          · exact ih ms2 _ hps
          · exact ih ms2 _ hps

theorem unitLoop_ignore :
    ∀ (ms acc : List Measurement),
      unitLoop "ignore" ms acc = Except.ok (acc ++ ms) := by
  intro ms
  induction ms with
  | nil => intro acc; simp [unitLoop]
  | cons m rest ih =>
    intro acc
    simp only [unitLoop]
    cases hlast : acc.getLast? with
    | none => rw [ih]; simp
    | some prev =>
      dsimp only
      by_cases h1 : m.unit ≠ prev.unit
      · rw [if_pos h1, if_neg (by decide), if_neg (by decide), ih]
        simp
      · rw [if_neg h1, ih]
        simp

theorem unitLoop_exception :
    ∀ (ms acc : List Measurement),
      (List.Chain' (fun a b => a.unit = b.unit) (acc.getLast?.toList ++ ms) →
        unitLoop "exception" ms acc = Except.ok (acc ++ ms))
      ∧ (¬ List.Chain' (fun a b => a.unit = b.unit) (acc.getLast?.toList ++ ms) →
        ∃ msg, unitLoop "exception" ms acc = Except.error (PErr.RuntimeError msg)) := by
  intro ms
  induction ms with
  | nil =>
    intro acc
    constructor
    · intro _; simp [unitLoop]
    · intro hn
      exfalso
      apply hn
      cases acc.getLast? with
      | none => simp
      | some prev => simp [List.chain'_singleton]
  | cons m rest ih =>
    intro acc
    have hcat : (acc ++ [m]) ++ rest = acc ++ m :: rest := by simp
    constructor
    · intro hch
      simp only [unitLoop]
      cases hlast : acc.getLast? with
      | none =>
        rw [hlast] at hch
        simp only [Option.toList, List.nil_append] at hch
        have h2 := (ih (acc ++ [m])).1
        rw [List.getLast?_concat] at h2
        rw [h2 (by simpa using hch), hcat]
      | some prev =>
        rw [hlast] at hch
        simp only [Option.toList, List.cons_append, List.nil_append] at hch
        rw [List.chain'_cons] at hch
        dsimp only
        rw [if_neg (by simp [hch.1])]
        have h2 := (ih (acc ++ [m])).1
        rw [List.getLast?_concat] at h2
        rw [h2 (by simpa using hch.2), hcat]
    · intro hnch
      simp only [unitLoop]
      cases hlast : acc.getLast? with
      | none =>
        rw [hlast] at hnch
        simp only [Option.toList, List.nil_append] at hnch
        have h2 := (ih (acc ++ [m])).2
        rw [List.getLast?_concat] at h2
        exact h2 (by simpa using hnch)
      | some prev =>
        rw [hlast] at hnch
        simp only [Option.toList, List.cons_append, List.nil_append] at hnch
        rw [List.chain'_cons] at hnch
        dsimp only
        by_cases hu : m.unit = prev.unit
        · rw [if_neg (by simp [hu])]
          have h2 := (ih (acc ++ [m])).2
          rw [List.getLast?_concat] at h2
          apply h2
          simp only [Option.toList, List.cons_append, List.nil_append]
          intro hch2
          exact hnch ⟨hu.symm, hch2⟩
        · rw [if_pos (by simp [hu])]
          exact ⟨"Meter changed from reading " ++ prev.unit ++ " to " ++ m.unit,
                 by simp⟩

theorem trailingRun_of_run (acc : List Measurement)
    (hrun : ∀ prev, acc.getLast? = some prev → ∀ a ∈ acc, a.unit = prev.unit) :
    trailingRun acc = acc := by
  cases hl : acc.getLast? with
  | none =>
    have hacc : acc = [] := List.getLast?_eq_none_iff.mp hl
    subst hacc
    rfl
  | some prev =>
    unfold trailingRun
    rw [hl]
    dsimp only
    have hall : acc.reverse.takeWhile (fun x => x.unit == prev.unit)
        = acc.reverse := by
      rw [List.takeWhile_eq_self_iff]
      intro x hx
      rw [List.mem_reverse] at hx
      simpa [beq_iff_eq] using hrun prev hl x hx
    rw [hall, List.reverse_reverse]

theorem trailingRun_junction (acc : List Measurement) (prev m : Measurement)
    (rest : List Measurement) (hl : acc.getLast? = some prev)
    (hne : m.unit ≠ prev.unit) :
    trailingRun (acc ++ m :: rest) = trailingRun (m :: rest) := by
  obtain ⟨L, hL⟩ : ∃ L, (m :: rest).getLast? = some L := by
    cases hg : (m :: rest).getLast? with
    | none => exact absurd (List.getLast?_eq_none_iff.mp hg) (by simp)
    | some L => exact ⟨L, rfl⟩
  have hlastLhs : (acc ++ m :: rest).getLast? = some L := by
    rw [List.getLast?_append, hL]
    rfl
  unfold trailingRun
  rw [hlastLhs, hL, List.reverse_append]
  dsimp only
  rw [List.takeWhile_append]
  by_cases hall : (List.takeWhile (fun x => x.unit == L.unit)
      (m :: rest).reverse).length = (m :: rest).reverse.length
  · rw [if_pos hall]
    have heq : List.takeWhile (fun x => x.unit == L.unit) (m :: rest).reverse
        = (m :: rest).reverse :=
      (List.takeWhile_prefix _).eq_of_length hall
    have hmem : ∀ x ∈ (m :: rest).reverse, x.unit = L.unit := by
      intro x hx
      have := List.takeWhile_eq_self_iff.mp heq x hx
      simpa [beq_iff_eq] using this
    have hmu : m.unit = L.unit := hmem m (by simp)
    obtain ⟨t, ht⟩ : ∃ t, acc.reverse = prev :: t := by
      cases hr : acc.reverse with
      | nil =>
        exfalso
        have := List.head?_reverse acc
        rw [hr, hl] at this
        cases this
      | cons a t =>
        have := List.head?_reverse acc
        rw [hr, hl] at this
        cases this
        exact ⟨t, rfl⟩
    have hstop : List.takeWhile (fun x => x.unit == L.unit) acc.reverse = [] := by
      rw [ht]
      have hp : (prev.unit == L.unit) = false := by
        rw [Bool.eq_false_iff]
        intro hc
        rw [beq_iff_eq] at hc
        exact hne (hmu.trans hc.symm)
      simp [List.takeWhile, hp]
    rw [hstop, heq]
    simp
  · rw [if_neg hall]

theorem unitLoop_truncate :
    ∀ (ms acc : List Measurement),
      (∀ prev, acc.getLast? = some prev → ∀ a ∈ acc, a.unit = prev.unit) →
      unitLoop "truncate" ms acc = Except.ok (trailingRun (acc ++ ms)) := by
  intro ms
  induction ms with
  | nil =>
    intro acc hrun
    simp only [unitLoop, List.append_nil]
    rw [trailingRun_of_run acc hrun]
  | cons m rest ih =>
    intro acc hrun
    have hrunm : ∀ prev, ([m] : List Measurement).getLast? = some prev →
        ∀ a ∈ [m], a.unit = prev.unit := by
      intro prev hp a ha
      simp only [List.getLast?_singleton, Option.some.injEq] at hp
      simp only [List.mem_singleton] at ha
      rw [ha, hp]
    simp only [unitLoop]
    cases hlast : acc.getLast? with
    | none =>
      have hacc : acc = [] := List.getLast?_eq_none_iff.mp hlast
      subst hacc
      show unitLoop "truncate" rest [m] = Except.ok (trailingRun (m :: rest))
      rw [ih [m] hrunm]
      rfl
    | some prev =>
      dsimp only
      by_cases hu : m.unit ≠ prev.unit
      · rw [if_pos hu]
        simp only [reduceIte]
        rw [ih [m] hrunm]
        rw [show ([m] ++ rest : List Measurement) = m :: rest from rfl]
        rw [trailingRun_junction acc prev m rest hlast hu]
        rw [if_neg (by decide : ¬ ("truncate" : String) = "exception")]
      · rw [if_neg hu]
        push_neg at hu
        have hrun2 : ∀ prev2, (acc ++ [m]).getLast? = some prev2 →
            ∀ a ∈ acc ++ [m], a.unit = prev2.unit := by
          intro prev2 hp2 a ha
          rw [List.getLast?_concat] at hp2
          cases hp2
          rcases List.mem_append.mp ha with h | h
          · exact (hrun prev hlast a h).trans hu.symm
          · simp only [List.mem_singleton] at h
            rw [h]
        rw [ih (acc ++ [m]) hrun2]
        rw [show (acc ++ [m]) ++ rest = acc ++ m :: rest by simp]

/-- C2 (amended): for a package list whose parses all succeed, the
`exception` policy (the Python default) succeeds exactly when no unit
change occurs and otherwise raises a unit-change error; `truncate` keeps
exactly the trailing run of the final unit; `ignore` keeps everything; and
every other policy value is rejected. -/
theorem parse_package_list_policies (pkgs : List Package)
    (ms : List Measurement) (hp : parseAll pkgs = Except.ok ms) :
    (List.Chain' (fun a b => a.unit = b.unit) ms →
      parse_package_list pkgs "exception" = Except.ok ms)
    ∧ (¬ List.Chain' (fun a b => a.unit = b.unit) ms →
      ∃ msg, parse_package_list pkgs "exception"
        = Except.error (PErr.RuntimeError msg))
    ∧ parse_package_list pkgs "truncate" = Except.ok (trailingRun ms)
    ∧ parse_package_list pkgs "ignore" = Except.ok ms
    ∧ ∀ mode_change, mode_change ∉ valid_modes →
        parse_package_list pkgs mode_change
          = Except.error (PErr.RuntimeError "mode_change not one of valid_set") := by
  have hexc : parse_package_list pkgs "exception" = unitLoop "exception" ms [] := by
    rw [show parse_package_list pkgs "exception"
        = ppl_go "exception" pkgs [] from by simp [parse_package_list, valid_modes]]
    exact ppl_go_eq_unitLoop "exception" pkgs ms [] hp
  have htru : parse_package_list pkgs "truncate" = unitLoop "truncate" ms [] := by
    rw [show parse_package_list pkgs "truncate"
        = ppl_go "truncate" pkgs [] from by simp [parse_package_list, valid_modes]]
    exact ppl_go_eq_unitLoop "truncate" pkgs ms [] hp
  have hign : parse_package_list pkgs "ignore" = unitLoop "ignore" ms [] := by
    rw [show parse_package_list pkgs "ignore"
        = ppl_go "ignore" pkgs [] from by simp [parse_package_list, valid_modes]]
    exact ppl_go_eq_unitLoop "ignore" pkgs ms [] hp
  refine ⟨?_, ?_, ?_, ?_, ?_⟩
  · intro hch
    rw [hexc]
    have := (unitLoop_exception ms []).1
    simpa using this (by simpa using hch)
  · intro hnch
    rw [hexc]
    have := (unitLoop_exception ms []).2
    exact this (by simpa using hnch)
  · rw [htru]
    have := unitLoop_truncate ms [] (by intro prev hp2; cases hp2)
    simpa using this
  · rw [hign]
    simpa using unitLoop_ignore ms []
  · intro mode_change hmode
    simp [parse_package_list, hmode]

/-- C2 (counterexample): the policy value named `fail` in the claim is
rejected by `parse_package_list`, while the value actually accepted for
fail-on-unit-change is named `exception`. -/
theorem parse_package_list_fail_name_counterexample :
    parse_package_list [] "fail"
      = Except.error (PErr.RuntimeError "mode_change not one of valid_set")
    ∧ parse_package_list [] "exception" = Except.ok [] := by
  constructor
  · rfl
  · rfl

end Parser

/-- Segment pattern of the digit 1. -/
def Parser.oneSeg : Reader.Seg7 :=
  ⟨false, true, true, false, false, false, false⟩

/-- Segment pattern of the digit 9. -/
def Parser.nineSeg : Reader.Seg7 :=
  ⟨true, true, true, true, false, true, true⟩

/-- Segment pattern of the letter C. -/
def Parser.ceeSeg : Reader.Seg7 :=
  ⟨true, false, false, true, true, true, false⟩

/-- Segment pattern of the digit 6. -/
def Parser.sixSeg : Reader.Seg7 :=
  ⟨true, false, true, true, true, true, true⟩

/-- Segment pattern of the digit 7. -/
def Parser.sevenSeg : Reader.Seg7 :=
  ⟨true, true, true, false, false, false, false⟩

/-- Segment pattern of the letter F. -/
def Parser.effSeg : Reader.Seg7 :=
  ⟨true, false, false, false, true, true, true⟩

/-- A package displaying ` 19C` with no symbols: 19 degrees Celsius. -/
def Parser.pkgTempC : Reader.Package :=
  { segments := [Parser.blankSeg, Parser.oneSeg, Parser.nineSeg, Parser.ceeSeg],
    dots := [false, false, false], minus := false, symbols := ∅, timestamp := 0 }

/-- A package displaying ` 67F` with no symbols: 67 degrees Fahrenheit. -/
def Parser.pkgTempF : Reader.Package :=
  { segments := [Parser.blankSeg, Parser.sixSeg, Parser.sevenSeg, Parser.effSeg],
    dots := [false, false, false], minus := false, symbols := ∅, timestamp := 0 }

/-- The measurement decoded from the Celsius package. -/
def Parser.measTempC : Meas.Measurement :=
  (Parser.parse_package Parser.pkgTempC).toOption.getD Parser.emptyMeasurement

/-- The measurement decoded from the Fahrenheit package. -/
def Parser.measTempF : Meas.Measurement :=
  (Parser.parse_package Parser.pkgTempF).toOption.getD Parser.emptyMeasurement

/-- Witness for `Parser.parse_package_list_policies`: a Celsius frame
followed by a Fahrenheit frame errors under `exception`, truncates to the
final unit under `truncate`, is kept whole under `ignore`, and the policy
name `fail` is rejected. -/
theorem Parser.parse_package_list_policies_witness :
    (∃ msg, Parser.parse_package_list [Parser.pkgTempC, Parser.pkgTempF] "exception"
        = Except.error (PErr.RuntimeError msg))
    ∧ Parser.parse_package_list [Parser.pkgTempC, Parser.pkgTempF] "truncate"
        = Except.ok (Parser.trailingRun [Parser.measTempC, Parser.measTempF])
    ∧ Parser.trailingRun [Parser.measTempC, Parser.measTempF] = [Parser.measTempF]
    ∧ Parser.parse_package_list [Parser.pkgTempC, Parser.pkgTempF] "ignore"
        = Except.ok [Parser.measTempC, Parser.measTempF]
    ∧ Parser.parse_package_list [Parser.pkgTempC, Parser.pkgTempF] "fail"
        = Except.error (PErr.RuntimeError "mode_change not one of valid_set") := by
  have h := Parser.parse_package_list_policies [Parser.pkgTempC, Parser.pkgTempF]
    [Parser.measTempC, Parser.measTempF] (by rfl)
  refine ⟨h.2.1 ?_, h.2.2.1, by rfl, h.2.2.2.1, h.2.2.2.2 "fail" (by decide)⟩
  intro hch
  rw [List.chain'_cons] at hch
  exact absurd hch.1 (by decide)
